import Mathlib

/-!
Verification development for the Elev8 backend's Place Resolution & Adaptive
Scoring Engine.  The JavaScript sources are shallowly embedded: JS numbers are
modelled as rationals (`ℚ`), `Math.round` as `jsRound`, JS strings as lists of
characters (`JStr`), fallible network calls as `Option`-valued outcomes, and
the module-level `Map` caches as association lists kept in insertion order,
mirroring JS `Map` iteration-order semantics.
-/

namespace Elev8

/-- JS strings, modelled as their character lists so that concrete string
computations evaluate inside the kernel. -/
abbrev JStr := List Char

/-- JS `Math.round`: round half toward positive infinity.  Stated with the
computable `Rat.floor` so that concrete scores evaluate; `jsRound_eq`
restates it with the ambient `Int.floor`. -/
def jsRound (q : ℚ) : ℤ := (q + 1/2).floor

/-- `clamp` from src/unnamed/part_003 line 792:
`(n, min, max) => Math.max(min, Math.min(max, n))`. -/
def clamp (n lo hi : ℚ) : ℚ := max lo (min hi n)

/-- `clampPct` from src/server.js line 53 (identical in part_003 line 134):
`(n) => Math.max(0, Math.min(100, Math.round(Number(n) || 0)))`. -/
def clampPct (n : ℚ) : ℤ := max 0 (min 100 (jsRound n))

/-- Whitespace test used to model JS `trim` and `split(/\s+/)`. -/
def isWs (c : Char) : Bool := c = ' ' || c = '\t' || c = '\n' || c = '\r'

/-- JS `String.prototype.trim`. -/
def jsTrim (s : JStr) : JStr := ((s.dropWhile isWs).reverse.dropWhile isWs).reverse

/-- JS `String.prototype.toLowerCase`, character by character. -/
def jsToLower (s : JStr) : JStr := s.map Char.toLower

/-- Helper for `occursWithin`: does `n` occur at the very front of `h`? -/
def leadsList : JStr → JStr → Bool
  | [], _ => true
  | _ :: _, [] => false
  | a :: as, b :: bs => decide (a = b) && leadsList as bs

/-- JS `String.prototype.includes needle` (substring occurrence). -/
def occursWithin (needle : JStr) : JStr → Bool
  | [] => leadsList needle []
  | c :: t => leadsList needle (c :: t) || occursWithin needle t

/-- Accumulator for `tokensOf`: pairs the finished tokens with the token
currently being read (scanning from the right). -/
def tokensAux (s : JStr) : List JStr × JStr :=
  s.foldr
    (fun c acc =>
      if isWs c then (if acc.2 ≠ [] then (acc.2 :: acc.1, []) else acc)
      else (acc.1, c :: acc.2))
    ([], [])

/-- JS `s.split(/\s+/).filter(Boolean)`: the whitespace-separated tokens. -/
def tokensOf (s : JStr) : List JStr :=
  (tokensAux s).2 :: (tokensAux s).1 |>.filter (fun t => t ≠ [])

/-- Rejoin tokens with single spaces (used by the token-level model of the
word-boundary regex replacements). -/
def joinSpace : List JStr → JStr
  | [] => []
  | [t] => t
  | t :: rest => t ++ ' ' :: joinSpace rest

/-- JS `Set.prototype.add` on an insertion-ordered list: appends the element
unless it is already present. -/
def setAdd (l : List JStr) (s : JStr) : List JStr :=
  if s ∈ l then l else l ++ [s]

/-! ## Review-volume step function and GBP score (src/unnamed/part_003) -/

/-- `scoreReviewVolume` from src/unnamed/part_003 lines 874-882.  The JS
argument is a number (non-finite inputs take the first branch, which the `ℚ`
embedding has no counterpart of). -/
def scoreReviewVolume (count : ℚ) : ℚ :=
  if count ≤ 0 then 0
  else if count < 5 then 1/4
  else if count < 20 then 2/5
  else if count < 50 then 3/5
  else if count < 100 then 4/5
  else if count < 250 then 9/10
  else 1

/-- Bucket index induced by the threshold chain of `scoreReviewVolume`
(part_003 lines 874-882): two counts are in the same bucket exactly when they
satisfy the same chain of threshold tests. -/
def volBucket (count : ℚ) : ℕ :=
  if count ≤ 0 then 0
  else if count < 5 then 1
  else if count < 20 then 2
  else if count < 50 then 3
  else if count < 100 then 4
  else if count < 250 then 5
  else 6

/-- The value table of the buckets of `volBucket`: bucket index to step
value, read off the branches of `scoreReviewVolume`. -/
def bucketValue : ℕ → ℚ
  | 0 => 0
  | 1 => 1/4
  | 2 => 2/5
  | 3 => 3/5
  | 4 => 4/5
  | 5 => 9/10
  | _ => 1

/-- Inputs of `computeGbpScore` (src/unnamed/part_003 lines 883-919) after the
coercions at its head: `rating = Number(details?.rating) || 0`,
`user_ratings_total = Number(details?.user_ratings_total) || 0`,
`hasPhotos = Array.isArray(details?.photos) && details.photos.length > 0`,
`hasHours = !!details?.opening_hours`, and
`categoryText = details?.editorial_summary?.overview || primaryType || ""`. -/
structure GbpDetails where
  rating : ℚ
  user_ratings_total : ℚ
  hasPhotos : Bool
  hasHours : Bool
  categoryText : JStr

/-- `computeGbpScore` from src/unnamed/part_003 lines 883-919, returning the
rounded `score` field (the `subs` breakdown is not consumed by any claim). -/
def computeGbpScore (d : GbpDetails) (expectedTradeLabel : JStr) : ℤ :=
  let ratingNorm := clamp (d.rating / 5) 0 1
  let volNorm := scoreReviewVolume d.user_ratings_total
  let trade := jsToLower expectedTradeLabel
  let catText := jsToLower d.categoryText
  let categoryNorm : ℚ := if trade ≠ [] then (if occursWithin trade catText then 1 else 3/5) else 4/5
  let photosNorm : ℚ := if d.hasPhotos then 1 else 0
  let hoursNorm : ℚ := if d.hasHours then 1 else 0
  jsRound ((ratingNorm * (2/5) + volNorm * (1/4) + categoryNorm * (3/20) +
      photosNorm * (1/10) + hoursNorm * (1/10)) * 100)

/-- Modelled from the spec for the refinement comparison of claim C3: the
review-volume step table exactly as the claim words it for integer review
counts (0 reviews to 0; 1-4 to 0.25; 5-19 to 0.40; 20-49 to 0.60; 50-99 to
0.80; 100-249 to 0.90; at least 250 to 1.0). -/
def specVolStep (n : ℕ) : ℚ :=
  if n = 0 then 0
  else if n ≤ 4 then 1/4
  else if n ≤ 19 then 2/5
  else if n ≤ 49 then 3/5
  else if n ≤ 99 then 4/5
  else if n ≤ 249 then 9/10
  else 1

/-- Modelled from the spec for the refinement comparison of claim C3: the
claimed GBP weighting
`100 × (0.40·ratingNorm + 0.25·volNorm + 0.15·categoryNorm + 0.10·photosNorm + 0.10·hoursNorm)`. -/
def specGbpFormula (ratingNorm volNorm categoryNorm photosNorm hoursNorm : ℚ) : ℚ :=
  100 * ((40/100) * ratingNorm + (25/100) * volNorm + (15/100) * categoryNorm +
    (10/100) * photosNorm + (10/100) * hoursNorm)

/-! ## GBP score and site score of src/unnamed/part_002 -/

/-- `volumePctFromReviews` from src/unnamed/part_002 lines 211-217. -/
def volumePctFromReviews (reviews : ℚ) : ℤ :=
  if 100 ≤ reviews then 100
  else if 50 ≤ reviews then 85
  else if 20 ≤ reviews then 70
  else if 5 ≤ reviews then 50
  else 20

/-- Details record consumed by `scoreGBP` (src/unnamed/part_002 lines 219-245)
after its head coercions: `rating = details.rating || 0`,
`user_ratings_total = details.user_ratings_total || 0`, `types` lowercased
later, `photos` the length of the photos array, and
`hasHours = !!(details.opening_hours && typeof open_now === "boolean")`. -/
structure GbpDetailsV2 where
  rating : ℚ
  user_ratings_total : ℚ
  types : List JStr
  photos : ℕ
  hasHours : Bool

/-- `scoreGBP` from src/unnamed/part_002 lines 219-245, returning the rounded
`gbpScore` (a null `details` yields 0, as in the source). -/
def scoreGBP (details : Option GbpDetailsV2) (businessType : JStr) : ℤ :=
  match details with
  | none => 0
  | some d =>
    let ratingPct : ℤ := jsRound ((d.rating / 5) * 100)
    let volumePct : ℤ := volumePctFromReviews d.user_ratings_total
    let bt := jsTrim (jsToLower businessType)
    let cats := d.types.map jsToLower
    let categoryPct : ℤ := if bt ≠ [] then (if cats.any (fun c => occursWithin bt c) then 100 else 50) else 60
    let photosPct : ℤ := max 0 (min 100 ((d.photos : ℤ) * 5))
    let hoursPct : ℤ := if d.hasHours then 80 else 40
    jsRound ((35/100) * (ratingPct : ℚ) + (25/100) * (volumePct : ℚ) +
      (15/100) * (categoryPct : ℚ) + (15/100) * (photosPct : ℚ) + (1/10) * (hoursPct : ℚ))

/-- The `out` object of `extractSiteSignals` (src/unnamed/part_002 lines
185-199), consumed by `scoreWebsite`. -/
structure SiteSignals where
  titleLen : ℕ
  hasMetaDesc : Bool
  telCount : ℕ
  h1Count : ℕ
  ctaBonus : ℚ

/-- `scoreWebsite` from src/unnamed/part_002 lines 201-210. -/
def scoreWebsite (signals : SiteSignals) (reachable : Bool) : ℤ :=
  let base : ℚ := 20
  let base := if 10 ≤ signals.titleLen then base + 10 else base
  let base := if 30 ≤ signals.titleLen then base + 10 else base
  let base := if signals.hasMetaDesc then base + 10 else base
  let base := if 1 ≤ signals.h1Count then base + 10 else base
  let base := base + signals.ctaBonus
  let base := if reachable then base else base - 30
  max 0 (min 100 (jsRound base))

/-! ## Site weights and blended score of src/unnamed/part_003 -/

/-- One `{seo, cta}` weight pair of the `SITE_WEIGHTS` table
(src/unnamed/part_003 lines 1091-1098). -/
structure SiteWeights where
  seo : ℚ
  cta : ℚ

/-- `pickSiteWeights` from src/unnamed/part_003 lines 1100-1110, with the
`SITE_WEIGHTS` table inlined. -/
def pickSiteWeights (trade : JStr) (emergencyMode : Bool) : SiteWeights :=
  let t := jsToLower trade
  let base : SiteWeights :=
    if occursWithin "roof".toList t then ⟨55/100, 45/100⟩
    else if occursWithin "plumb".toList t then ⟨45/100, 55/100⟩
    else if occursWithin "hvac".toList t || occursWithin "air".toList t || occursWithin "heat".toList t then
      (if occursWithin "install".toList t then ⟨65/100, 35/100⟩ else ⟨45/100, 55/100⟩)
    else ⟨6/10, 4/10⟩
  if emergencyMode then ⟨5/10, 5/10⟩ else base

/-- The return line of `scoreSEO` (src/unnamed/part_003 line 1088):
`clamp(pts, 0, 100)`; the DOM point accumulation is abstracted as the `pts`
argument. -/
def seoOfPts (pts : ℚ) : ℚ := clamp pts 0 100

/-- The return line of `scoreCTA` (src/unnamed/part_003 line 1016):
`clamp(pts, 0, 100)`; the DOM point accumulation is abstracted as the `pts`
argument. -/
def ctaOfPts (pts : ℚ) : ℚ := clamp pts 0 100

/-- `siteScore` of the /api/analyze handler (src/unnamed/part_003 line 1296):
`Math.round(siteW.seo * seo + siteW.cta * cta)`. -/
def siteScoreOf (w : SiteWeights) (seo cta : ℚ) : ℤ := jsRound (w.seo * seo + w.cta * cta)

/-- `useBlend` from src/unnamed/part_003 line 1299:
`!!(officialWebsite && siteProbe?.checked && siteProbe.reachable)`. -/
def useBlend (officialWebsite probeChecked probeReachable : Bool) : Bool :=
  officialWebsite && probeChecked && probeReachable

/-- `path` from src/unnamed/part_003 line 1300. -/
def pathOfBlend (ub : Bool) : JStr :=
  if ub then "BLENDED_60_40".toList else "GBP_ONLY".toList

/-- `finalScore` from src/unnamed/part_003 line 1301:
`Math.round(useBlend ? (0.6 * gbp.score + 0.4 * siteScore) : gbp.score)`. -/
def finalScoreV3 (ub : Bool) (gbpScore siteScore : ℤ) : ℤ :=
  jsRound (if ub then (6/10) * (gbpScore : ℚ) + (4/10) * (siteScore : ℚ) else (gbpScore : ℚ))

/-! ## Path selection decision table of src/unnamed/part_002 lines 487-517 -/

/-- The `status` / `path` / `finalScore` triple produced by the decision
chain of the /api/analyze handler in src/unnamed/part_002. -/
structure PathDecision where
  status : JStr
  path : JStr
  finalScore : ℤ

/-- The decision chain at src/unnamed/part_002 lines 487-517, as a function
of the four booleans it reads (`forceSiteOnly`, `placeId` non-null, `siteUrl`
non-empty, `siteProbe.ok`) and the two sub-scores. -/
def selectPath (forceSiteOnly placeId siteUrl probeOk : Bool) (gbpScore siteScore : ℤ) : PathDecision :=
  if forceSiteOnly then ⟨"SITE_ONLY_FORCED".toList, "SITE_ONLY".toList, siteScore⟩
  else if !placeId && siteUrl then ⟨"SITE_ONLY".toList, "SITE_ONLY".toList, siteScore⟩
  else if placeId && (!siteUrl || !probeOk) then ⟨"GBP_ONLY".toList, "GBP_ONLY".toList, gbpScore⟩
  else if placeId && siteUrl then
    ⟨"BLENDED_60_40".toList, "BLENDED_60_40".toList,
      jsRound ((6/10) * (gbpScore : ℚ) + (4/10) * (siteScore : ℚ))⟩
  else ⟨"NEEDS_INPUT".toList, "NEEDS_INPUT".toList, 0⟩

/-- Modelled from the spec (§4.8) for the refinement comparison of claim C1:
the path-selection decision table as the spec words it — forced site-only
first, then a resolved place blends 60/40 with a reachable website and falls
back to GBP only, a website alone is site-only, and nothing at all is
NEEDS_INPUT (the 0 score on NEEDS_INPUT follows the code's response shape,
which the claim does not constrain). -/
def specPathTable (forceSiteOnly placeResolved sitePresent siteReachable : Bool) (gbpScore siteScore : ℤ) : PathDecision :=
  if forceSiteOnly then ⟨"SITE_ONLY_FORCED".toList, "SITE_ONLY".toList, siteScore⟩
  else if placeResolved then
    if sitePresent && siteReachable then
      ⟨"BLENDED_60_40".toList, "BLENDED_60_40".toList,
        jsRound ((6/10) * (gbpScore : ℚ) + (4/10) * (siteScore : ℚ))⟩
    else ⟨"GBP_ONLY".toList, "GBP_ONLY".toList, gbpScore⟩
  else if sitePresent then ⟨"SITE_ONLY".toList, "SITE_ONLY".toList, siteScore⟩
  else ⟨"NEEDS_INPUT".toList, "NEEDS_INPUT".toList, 0⟩

/-! ## Website probes -/

/-- The classification line of `probeSite` in src/unnamed/part_002 lines
158-169: the HEAD outcome is `none` when fetch threw (network error, abort on
timeout) and `some status` otherwise; the source classifies
`res.ok || (res.status >= 200 && res.status < 400)`. -/
def probeOkV2 (outcome : Option ℕ) : Bool :=
  match outcome with
  | none => false
  | some status => (decide (200 ≤ status) && decide (status < 300)) ||
      (decide (200 ≤ status) && decide (status < 400))

/-- The `reachable` classification of `probeSite` in src/unnamed/part_003
lines 922-953: an empty URL short-circuits to unreachable, a thrown fetch
(`none`) is caught to unreachable, and otherwise `reachable = res.ok`
(status 200-299). -/
def probeReachableV3 (url : JStr) (outcome : Option ℕ) : Bool :=
  if url = [] then false
  else
    match outcome with
    | none => false
    | some status => decide (200 ≤ status) && decide (status < 300)

/-! ## Zero-result and NEEDS_INPUT responses (claim C2) -/

/-- The slice of the JSON responses relevant to claim C2. -/
structure AnalyzeResponse where
  success : Bool
  status : Option JStr
  finalScore : Option ℤ

/-- The zero-results baseline response of `app.post('/analyze')` in
src/server.js lines 160-181: `success: true`, `finalScore: 70`, no `status`
field. -/
def zeroResultsBaseline : AnalyzeResponse := ⟨true, none, some 70⟩

/-- The no-GBP/no-website response of `app.post("/api/analyze")` in
src/unnamed/part_003 lines 1216-1231: `status: "NEEDS_INPUT"`,
`finalScore: null`. -/
def needsInputResponseV3 : AnalyzeResponse := ⟨true, some "NEEDS_INPUT".toList, none⟩

/-- `calculateFinalScore` from src/server.js lines 300-346, returning the
`finalScore` field.  `googleData.rating / reviewCount` and the four Gemini
sub-scores arrive as arbitrary numbers; `final || 70` is the JS falsy test
(0 falls back to 70) and the result is `Math.min(_, 99)`. -/
def calculateFinalScore (rating reviewCount painPointResonance ctaStrength websiteHealth onPageSEO : ℚ)
    (businessTypeSpecialty : Bool) : ℤ :=
  let ratingScore := clampPct ((rating / 5) * 100)
  let reviewScore := clampPct (min (reviewCount / 150) 1 * 100)
  let pain := clampPct painPointResonance
  let cta := clampPct ctaStrength
  let web := clampPct websiteHealth
  let seo := clampPct onPageSEO
  let final : ℤ :=
    if businessTypeSpecialty then
      jsRound ((ratingScore : ℚ) * (2/10) + (reviewScore : ℚ) * (15/100) + (pain : ℚ) * (2/10) +
        (cta : ℚ) * (5/100) + (web : ℚ) * (15/100) + (seo : ℚ) * (15/100))
    else
      jsRound ((ratingScore : ℚ) * (15/100) + (reviewScore : ℚ) * (15/100) + (pain : ℚ) * (5/100) +
        (cta : ℚ) * (25/100) + (web : ℚ) * (15/100) + (seo : ℚ) * (15/100))
  min (if final = 0 then 70 else final) 99

/-- `calculateFinalScore` from src/unnamed/part_002 lines 2060-2093 (the
same function appears in part_003 lines 599-632): the review points
`Math.log10(Math.max(rc, 1)) * 25` are transcendental and abstracted as the
`reviewPts` argument (only their `clampPct` matters); `hasGemini` is the
source's test that some Gemini sub-score is a finite number — when it
holds all four qualitative metrics are kept (each through `clampPct`, with
missing ones coerced to 0), and when it fails they are dropped and the
remaining rating/review weights are renormalized by their sum; the result
is `Math.min(final || 70, 99)`. -/
def calculateFinalScoreV2 (rating reviewPts pain cta web seo : ℚ)
    (hasGemini maintenance : Bool) : ℤ :=
  let ratingScore := clampPct ((rating / 5) * 100)
  let reviewScore := clampPct reviewPts
  let wRating : ℚ := if maintenance then 2/10 else 25/100
  let wReview : ℚ := 25/100
  let wPain : ℚ := if maintenance then 1/10 else 2/10
  let wCta : ℚ := if maintenance then 15/100 else 1/10
  let wWeb : ℚ := if maintenance then 15/100 else 1/10
  let wSeo : ℚ := if maintenance then 15/100 else 1/10
  let final : ℤ :=
    if hasGemini then
      jsRound ((ratingScore : ℚ) * wRating + (reviewScore : ℚ) * wReview +
        (clampPct pain : ℚ) * wPain + (clampPct cta : ℚ) * wCta +
        (clampPct web : ℚ) * wWeb + (clampPct seo : ℚ) * wSeo)
    else
      jsRound ((ratingScore : ℚ) * (wRating / (wRating + wReview)) +
        (reviewScore : ℚ) * (wReview / (wRating + wReview)))
  min (if final = 0 then 70 else final) 99

/-! ## State-hint filter of src/unnamed/part_002 lines 1572-1591 (claim C7) -/

/-- A text-search result as consumed by the state-hint filter. -/
structure TextResult where
  formatted_address : JStr

/-- The state-hint filter inside `tryText` (src/unnamed/part_002 lines
1580-1589): when a state hint exists, keep only results whose address
matchesRe the regex built from the hint — unless that filter would empty the
list, in which case the raw list is kept.  The regex test
`,\s*STATE\b` is abstracted as the `matchesRe` predicate. -/
def applyStateHintFilter (stateHint : Option JStr) (matchesRe : JStr → JStr → Bool)
    (rawResults : List TextResult) : List TextResult :=
  match stateHint with
  | none => rawResults
  | some h =>
    let filtered := rawResults.filter (fun r => matchesRe h r.formatted_address)
    if filtered.length ≠ 0 then filtered else rawResults

/-! ## Candidate ranking of src/unnamed/part_002 (claim C8) -/

/-- A search candidate as scored in `resolvePlace` (src/unnamed/part_002
lines 320-358): `rating` and `user_ratings_total` after the `|| 0`
coercions. -/
structure Candidate where
  name : JStr
  rating : ℚ
  user_ratings_total : ℚ

/-- `nameSimilarity` from src/unnamed/part_002 lines 279-289: token-overlap
count (over de-duplicated whitespace tokens) times two, plus a length
proximity term. -/
def nameSimilarity (a b : JStr) : ℚ :=
  let A := jsToLower a
  let B := jsToLower b
  if A = [] ∨ B = [] then 0
  else
    let at_ := (tokensOf A).dedup
    let bt := (tokensOf B).dedup
    let overlap : ℕ := (at_.filter (fun t => t ∈ bt)).length
    let lenScore : ℚ := 1 - min 1 ((|(A.length : ℚ) - (B.length : ℚ)|) / max (A.length : ℚ) (B.length : ℚ))
    (overlap : ℚ) * 2 + lenScore

/-- `_strength` from src/unnamed/part_002 line 340:
`(c.rating || 0) * 20 + Math.min(100, c.user_ratings_total || 0)`. -/
def strength (c : Candidate) : ℚ := c.rating * 20 + min 100 c.user_ratings_total

/-- The sort comparator of src/unnamed/part_002 lines 343-348 turned into a
"may come first" Boolean relation: `a` may precede `b` exactly when
`b._sim - a._sim || b._strength - a._strength || b.urt - a.urt` is
not positive (descending similarity, then strength, then raw reviews). -/
def candLE (query : JStr) (a b : Candidate) : Bool :=
  let sa := nameSimilarity query a.name
  let sb := nameSimilarity query b.name
  decide (sb < sa) ||
    (decide (sa = sb) &&
      (decide (strength b < strength a) ||
        (decide (strength a = strength b) && decide (b.user_ratings_total ≤ a.user_ratings_total))))

/-- The ranked candidate list of `resolvePlace` (src/unnamed/part_002 lines
337-358): a stable sort by `candLE` — `Array.prototype.sort` is stable, and
`List.mergeSort` is its stable model. -/
def rankCandidates (query : JStr) (cs : List Candidate) : List Candidate :=
  cs.mergeSort (candLE query)

/-! ## Name-variant expanders (claim C9) -/

/-- Does token `tok` match the word `w` with an optional trailing dot,
case-insensitively?  This is the token-level model of the regex
`\bW\.?\b` used by the part_003 expander. -/
def tokMatches (w : JStr) (tok : JStr) : Bool :=
  decide (jsToLower tok = w) || decide (jsToLower tok = w ++ ['.'])

/-- Token-level model of `n.replace(/\bW\.?\b/gi, "").trim()`
(src/unnamed/part_003 lines 810-813): drop every token matching the word,
rejoin with single spaces (the regex leaves stray spaces that the
trailing `.trim()` and the later search queries make immaterial). -/
def replaceWordGi (w : JStr) (s : JStr) : JStr :=
  joinSpace ((tokensOf s).filter (fun t => !tokMatches w t))

/-- Token-level model of `n.replace(/\ball\s*state\b/gi, "Allstate")`
(src/unnamed/part_003 line 814). -/
def subAllStateFwd : List JStr → List JStr
  | [] => []
  | [a] => if decide (jsToLower a = "allstate".toList) then ["Allstate".toList] else [a]
  | a :: b :: rest =>
    if decide (jsToLower a = "all".toList) && decide (jsToLower b = "state".toList) then
      "Allstate".toList :: subAllStateFwd rest
    else if decide (jsToLower a = "allstate".toList) then
      "Allstate".toList :: subAllStateFwd (b :: rest)
    else a :: subAllStateFwd (b :: rest)

/-- Token-level model of `n.replace(/\ballstate\b/gi, "All State")`
(src/unnamed/part_003 line 815). -/
def subAllStateRev (toks : List JStr) : List JStr :=
  toks.flatMap (fun t =>
    if decide (jsToLower t = "allstate".toList) then ["All".toList, "State".toList] else [t])

/-- `expandNameVariants` from src/unnamed/part_003 lines 807-817: a JS `Set`
seeded with the trimmed name, extended with the suffix-stripped and
brand-alias variants, then `Array.from(set).filter(Boolean)`. -/
def expandNameVariants (name : JStr) : List JStr :=
  let n := jsTrim name
  let out := [n]
  let out := setAdd out (replaceWordGi "inc".toList n)
  let out := setAdd out (replaceWordGi "llc".toList n)
  let out := setAdd out (replaceWordGi "co".toList n)
  let out := setAdd out (replaceWordGi "corp".toList n)
  let out := setAdd out (joinSpace (subAllStateFwd (tokensOf n)))
  let out := setAdd out (joinSpace (subAllStateRev (tokensOf n)))
  out.filter (fun s => s ≠ [])

/-- Model of `s.replace(/[,.\s]+$/g, "")` inside `cleanTail`
(src/unnamed/part_002 line 264): drop trailing commas, dots and
whitespace. -/
def dropTrailingPunct (s : JStr) : JStr :=
  (s.reverse.dropWhile (fun c => c = ',' || c = '.' || isWs c)).reverse

/-- Model of `s.replace(/^(the|a)\s+/i, "")` inside `cleanTail`
(src/unnamed/part_002 line 265): strip a leading article followed by
whitespace. -/
def dropArticle (s : JStr) : JStr :=
  let l := jsToLower s
  if decide (l.take 4 = "the ".toList) then (s.drop 3).dropWhile isWs
  else if decide (l.take 2 = "a ".toList) then (s.drop 1).dropWhile isWs
  else s

/-- Token-level model of `s.replace(/\s*&\s*sons\b/i, "")` inside
`cleanTail` (src/unnamed/part_002 line 266): drop the first adjacent
token pair `& sons`. -/
def dropAndSons : List JStr → List JStr
  | [] => []
  | [a] => [a]
  | a :: b :: rest =>
    if decide (a = ['&']) && decide (jsToLower b = "sons".toList) then rest
    else a :: dropAndSons (b :: rest)

/-- `cleanTail` from src/unnamed/part_002 lines 262-267 (the final `.trim()`
is subsumed by the token rejoin). -/
def cleanTail (s : JStr) : JStr :=
  joinSpace (dropAndSons (tokensOf (dropArticle (dropTrailingPunct s))))

/-- Token-level model of `base.replace(/\b(inc|llc|ltd)\.?$/i, "")`
(src/unnamed/part_002 line 271): drop the last token when it is a legal
suffix with an optional trailing dot. -/
def stripSuffixEnd (s : JStr) : JStr :=
  let toks := tokensOf s
  match toks.getLast? with
  | none => s
  | some last =>
    if tokMatches "inc".toList last || tokMatches "llc".toList last || tokMatches "ltd".toList last then
      joinSpace (toks.dropLast)
    else s

/-- Token-level model of `base.replace(/\b(inc\.?|llc\.?|ltd\.?)\b/gi, "")`
(src/unnamed/part_002 line 272): drop every legal-suffix token. -/
def stripSuffixAll (s : JStr) : JStr :=
  joinSpace ((tokensOf s).filter (fun t =>
    !(tokMatches "inc".toList t || tokMatches "llc".toList t || tokMatches "ltd".toList t)))

/-- Token-level model of `base.replace(/\s+co(mpany)?\.?$/i, "")`
(src/unnamed/part_002 line 273): drop a trailing `co` / `company` token. -/
def stripCoTail (s : JStr) : JStr :=
  let toks := tokensOf s
  match toks.getLast? with
  | none => s
  | some last =>
    if tokMatches "co".toList last || tokMatches "company".toList last then
      joinSpace (toks.dropLast)
    else s

/-- `expandNameVariants` from src/unnamed/part_002 lines 261-276 (the
`cleanTail` variant): seeds a JS `Set` with the cleaned base, adds the
suffix-stripped forms, and filters out empty strings. -/
def expandNameVariantsV2 (name : JStr) : List JStr :=
  let base := cleanTail name
  if base = [] then []
  else
    let out := [base]
    let out := setAdd out (cleanTail (stripSuffixEnd base))
    let out := setAdd out (cleanTail (stripSuffixAll base))
    let out := setAdd out (cleanTail (stripCoTail base))
    out.filter (fun s => s ≠ [])

/-! ## The PLACE_CACHE of src/unnamed/part_002 lines 1513-1530 (claim C10) -/

/-- A cache entry `{ val, exp }`. -/
structure CacheEntry (α : Type) where
  val : α
  exp : ℤ
deriving DecidableEq

/-- The JS `Map` backing `PLACE_CACHE`, modelled as an association list in
insertion order (JS `Map` iterates in insertion order; `set` on an existing
key updates in place without moving it; `keys().next().value` is the head). -/
abbrev JsMap (K α : Type) := List (K × CacheEntry α)

/-- JS `Map.prototype.set`: update in place if present, else append. -/
def mapSet {K α : Type} [DecidableEq K] : JsMap K α → K → CacheEntry α → JsMap K α
  | [], k, e => [(k, e)]
  | (k', e') :: rest, k, e =>
    if k' = k then (k', e) :: rest else (k', e') :: mapSet rest k e

/-- JS `Map.prototype.delete` (keys are unique in a JS `Map`, so removing
the first occurrence is exact). -/
def mapDelete {K α : Type} [DecidableEq K] : JsMap K α → K → JsMap K α
  | [], _ => []
  | (k', e') :: rest, k => if k' = k then rest else (k', e') :: mapDelete rest k

/-- JS `Map.prototype.get`. -/
def mapGet {K α : Type} [DecidableEq K] : JsMap K α → K → Option (CacheEntry α)
  | [], _ => none
  | (k', e') :: rest, k => if k' = k then some e' else mapGet rest k

/-- `PLACE_TTL_MS` from src/unnamed/part_002 line 1515. -/
def PLACE_TTL_MS : ℤ := 60 * 60 * 1000

/-- `getFromCache` from src/unnamed/part_002 lines 1516-1523, with
`Date.now()` passed explicitly: a miss leaves the map alone, an expired hit
is deleted, and a fresh hit is deleted and re-inserted at the end (the
LRU-ish refresh). -/
def getFromCache {K α : Type} [DecidableEq K] (now : ℤ) (m : JsMap K α) (id : K) :
    Option α × JsMap K α :=
  match mapGet m id with
  | none => (none, m)
  | some hit =>
    if hit.exp < now then (none, mapDelete m id)
    else (some hit.val, mapDelete m id ++ [(id, hit)])

/-- `setCache` from src/unnamed/part_002 lines 1524-1530: insert, then if
the size exceeds 500 delete the first key in iteration order. -/
def setCache {K α : Type} [DecidableEq K] (now : ℤ) (m : JsMap K α) (id : K) (v : α) : JsMap K α :=
  let m' := mapSet m id ⟨v, now + PLACE_TTL_MS⟩
  if 500 < m'.length then
    match m' with
    | [] => m'
    | (k0, _) :: _ => mapDelete m' k0
  else m'

/-- A cache access: either a `getFromCache` or a `setCache`, with its
`Date.now()` value. -/
inductive CacheOp (K α : Type) where
  | get (now : ℤ) (id : K)
  | set (now : ℤ) (id : K) (v : α)

/-- One cache access applied to the map state. -/
def stepCache {K α : Type} [DecidableEq K] (m : JsMap K α) : CacheOp K α → JsMap K α
  | .get now id => (getFromCache now m id).2
  | .set now id v => setCache now m id v

/-- A whole sequence of cache accesses. -/
def runCache {K α : Type} [DecidableEq K] (m : JsMap K α) (ops : List (CacheOp K α)) : JsMap K α :=
  ops.foldl stepCache m

/-! ## Basic lemmas about the numeric helpers -/

theorem jsRound_eq (q : ℚ) : jsRound q = ⌊q + 1/2⌋ := by
  rw [jsRound, Rat.floor_def', Rat.floor_def]

theorem jsRound_intCast (n : ℤ) : jsRound (n : ℚ) = n := by
  rw [jsRound_eq, Int.floor_eq_iff]
  exact ⟨by linarith, by linarith⟩

theorem jsRound_nonneg {q : ℚ} (h : 0 ≤ q) : 0 ≤ jsRound q := by
  rw [jsRound_eq]
  exact Int.le_floor.mpr (by push_cast; linarith)

theorem jsRound_le {q : ℚ} {n : ℤ} (h : q ≤ (n : ℚ)) : jsRound q ≤ n := by
  rw [jsRound_eq]
  have hlt : ⌊q + 1/2⌋ < n + 1 := Int.floor_lt.mpr (by push_cast; linarith)
  omega

theorem clamp_bounds (n lo hi : ℚ) (h : lo ≤ hi) : lo ≤ clamp n lo hi ∧ clamp n lo hi ≤ hi := by
  unfold clamp
  constructor
  · exact le_max_left _ _
  · exact max_le h (min_le_left _ _)

theorem clampPct_bounds (n : ℚ) : 0 ≤ clampPct n ∧ clampPct n ≤ 100 := by
  unfold clampPct
  omega

theorem scoreReviewVolume_bounds (c : ℚ) : 0 ≤ scoreReviewVolume c ∧ scoreReviewVolume c ≤ 1 := by
  unfold scoreReviewVolume
  split_ifs <;> norm_num

/-! ## Claim C1 -/

/-- Claim C1: path selection is a total deterministic function of the input
booleans — the part_002 decision chain agrees pointwise with the spec's
decision table (forced site-only wins; a resolved place blends 60/40 with a
reachable website and otherwise scores GBP only; a website alone is
site-only; nothing at all is NEEDS_INPUT), and the part_003 blend computes
`round(0.6·gbp + 0.4·site)` when blending and the plain GBP score
otherwise. -/
theorem C1_path_selection (f p su ok : Bool) (g s : ℤ) (ub : Bool) :
    selectPath f p su ok g s = specPathTable f p su ok g s ∧
    finalScoreV3 ub g s = (if ub then jsRound ((6/10) * (g : ℚ) + (4/10) * (s : ℚ)) else g) ∧
    pathOfBlend ub = (if ub then "BLENDED_60_40".toList else "GBP_ONLY".toList) := by
  refine ⟨?_, ?_, ?_⟩
  · cases f <;> cases p <;> cases su <;> cases ok <;> rfl
  · cases ub <;> simp [finalScoreV3, jsRound_intCast]
  · cases ub <;> rfl

/-! ## Claim C2 -/

/-- Claim C2 counterexample: the zero-results branch of the legacy
`/analyze` endpoint (src/server.js lines 160-181) returns a numeric,
hardcoded `finalScore: 70` with no NEEDS_INPUT status, refuting the claim
that no request ever receives a hardcoded fallback constant. -/
theorem C2_counterexample :
    zeroResultsBaseline.finalScore = some 70 ∧
    zeroResultsBaseline.status = none ∧
    zeroResultsBaseline.success = true :=
  ⟨rfl, rfl, rfl⟩

/-- Claim C2 amended: the `/api/analyze` engine of part_003 does return
status NEEDS_INPUT with a null finalScore when no place and no website
resolve, but the legacy `/analyze` endpoint of src/server.js instead
returns the hardcoded baseline `finalScore: 70` when search yields zero
results. -/
theorem C2_amended :
    needsInputResponseV3.status = some "NEEDS_INPUT".toList ∧
    needsInputResponseV3.finalScore = none ∧
    needsInputResponseV3.success = true ∧
    zeroResultsBaseline.finalScore = some 70 :=
  ⟨rfl, rfl, rfl, rfl⟩

/-! ## Claim C5 -/

/-- Claim C5 counterexample: a final HEAD status of 304 lies in the claimed
2xx-3xx reachable range, yet the part_003 probe (which tests `res.ok`,
i.e. 2xx only) classifies it unreachable. -/
theorem C5_counterexample :
    probeReachableV3 "https://example.com".toList (some 304) = false ∧
    200 ≤ 304 ∧ 304 < 400 := by
  refine ⟨by decide, by norm_num, by norm_num⟩

/-- Claim C5 amended: the part_002 probe classifies reachable exactly the
2xx-3xx statuses, while the part_003 probe classifies reachable exactly the
2xx statuses (`res.ok`); a missing URL, a network error or a timeout
(`none` outcome) always yields unreachable, and both classifiers are total
functions, so no exception escapes. -/
theorem C5_probe_classification (url : JStr) (outcome : Option ℕ) :
    (probeOkV2 outcome = true ↔ ∃ st, outcome = some st ∧ 200 ≤ st ∧ st < 400) ∧
    (probeReachableV3 url outcome = true ↔
      url ≠ [] ∧ ∃ st, outcome = some st ∧ 200 ≤ st ∧ st < 300) ∧
    probeOkV2 none = false ∧ probeReachableV3 url none = false := by
  refine ⟨?_, ?_, rfl, ?_⟩
  · cases outcome with
    | none => simp [probeOkV2]
    | some st =>
      simp only [probeOkV2, Bool.or_eq_true, Bool.and_eq_true, decide_eq_true_eq]
      constructor
      · rintro (⟨h1, h2⟩ | ⟨h1, h2⟩) <;> exact ⟨st, rfl, by omega, by omega⟩
      · rintro ⟨st2, hst, h1, h2⟩
        cases hst
        omega
  · by_cases hu : url = []
    · simp [probeReachableV3, hu]
    · cases outcome with
      | none => simp [probeReachableV3, hu]
      | some st =>
        simp only [probeReachableV3, if_neg hu, Bool.and_eq_true, decide_eq_true_eq]
        constructor
        · rintro ⟨h1, h2⟩
          exact ⟨hu, st, rfl, h1, h2⟩
        · rintro ⟨_, st2, hst, h1, h2⟩
          cases hst
          exact ⟨h1, h2⟩
  · by_cases hu : url = [] <;> simp [probeReachableV3, hu]

/-! ## Claim C7 -/

/-- Claim C7: the post-hoc state-code filter never empties a non-empty
candidate list — when every result fails the state test, the raw list is
kept. -/
theorem C7_filter_preserves_nonempty (stateHint : Option JStr) (matchesRe : JStr → JStr → Bool)
    (rawResults : List TextResult) (h : rawResults ≠ []) :
    applyStateHintFilter stateHint matchesRe rawResults ≠ [] := by
  unfold applyStateHintFilter
  cases stateHint with
  | none => exact h
  | some s =>
    simp only
    split_ifs with hf
    · intro hc
      rw [hc] at hf
      simp at hf
    · exact h

/-- Witness for C7 at a concrete input: one result whose address fails the
state test is still kept. -/
theorem C7_witness :
    applyStateHintFilter (some "NJ".toList) (fun _ _ => false)
      [⟨"1 Main St, Newark".toList⟩] ≠ [] :=
  C7_filter_preserves_nonempty (some "NJ".toList) (fun _ _ => false)
    [⟨"1 Main St, Newark".toList⟩] (List.cons_ne_nil _ _)

/-! ## Claims C3 and C6 -/

theorem scoreReviewVolume_natCast (n : ℕ) : scoreReviewVolume (n : ℚ) = specVolStep n := by
  unfold scoreReviewVolume specVolStep
  simp only [Nat.cast_nonpos, Nat.cast_lt_ofNat, Nat.le_zero]
  split_ifs <;> first | rfl | omega

theorem gbpScenario94 :
    computeGbpScore ⟨23/5, 120, true, true, "roofer".toList⟩ "roofer".toList = 94 := by
  have hocc : occursWithin (jsToLower ['r', 'o', 'o', 'f', 'e', 'r'])
      (jsToLower ['r', 'o', 'o', 'f', 'e', 'r']) = true := by decide
  have hne : jsToLower ['r', 'o', 'o', 'f', 'e', 'r'] ≠ [] := by decide
  simp only [computeGbpScore]
  norm_num [hocc, hne, scoreReviewVolume, clamp, jsRound_eq]

theorem gbpScenarioV2_81 :
    scoreGBP (some ⟨23/5, 120, ["roofer".toList], 1, true⟩) "roofer".toList = 81 := by
  have hbt : jsTrim (jsToLower ['r', 'o', 'o', 'f', 'e', 'r']) ≠ [] := by decide
  have hany : occursWithin (jsTrim (jsToLower ['r', 'o', 'o', 'f', 'e', 'r']))
      (jsToLower ['r', 'o', 'o', 'f', 'e', 'r']) = true := by decide
  simp only [scoreGBP]
  norm_num [hbt, hany, volumePctFromReviews, jsRound_eq]

/-- Claim C3 counterexample: the claimed scenario (rating 4.6, 120 reviews,
photos present, hours present, category match) scores 94 under part_003's
computeGbpScore, not 92 — 120 reviews fall in the 100-249 bucket whose step
value is 0.90, not the 0.80 the claim's arithmetic uses — and scores 81
under part_002's scoreGBP (with one photo), which follows a different
rubric altogether. -/
theorem C3_counterexample :
    computeGbpScore ⟨23/5, 120, true, true, "roofer".toList⟩ "roofer".toList = 94 ∧
    computeGbpScore ⟨23/5, 120, true, true, "roofer".toList⟩ "roofer".toList ≠ 92 ∧
    scoreGBP (some ⟨23/5, 120, ["roofer".toList], 1, true⟩) "roofer".toList = 81 ∧
    scoreGBP (some ⟨23/5, 120, ["roofer".toList], 1, true⟩) "roofer".toList ≠ 92 := by
  refine ⟨gbpScenario94, ?_, gbpScenarioV2_81, ?_⟩
  · rw [gbpScenario94]
    decide
  · rw [gbpScenarioV2_81]
    decide

/-- Claim C3 amended: of the two cited GBP implementations, only part_003's
computeGbpScore follows the claimed weighting — it equals the rounded
`100 × (0.40·ratingNorm + 0.25·volNorm + 0.15·categoryNorm + 0.10·photosNorm + 0.10·hoursNorm)`
with the claimed step table over integer review counts and the claimed
category normalization (1 on match, 0.6 on mismatch, 0.8 with no trade),
and the particular scenario (rating 4.6, 120 reviews, photos, hours,
category match) scores 94 there, not 92.  The part_002 scoreGBP cited
alongside it satisfies the claimed formula in no respect: it rounds
`0.35·ratingPct + 0.25·volumePct + 0.15·categoryPct + 0.15·photosPct + 0.10·hoursPct`
over percentage sub-scores whose volume table (20/50/70/85/100) disagrees
with the claimed step table (120 reviews map to 100, not 90), and it scores
81 at the scenario with one photo. -/
theorem C3_gbp_formula (d : GbpDetails) (trade : JStr) (n : ℕ)
    (hn : d.user_ratings_total = (n : ℚ)) :
    computeGbpScore d trade =
      jsRound (specGbpFormula (clamp (d.rating / 5) 0 1) (specVolStep n)
        (if jsToLower trade ≠ [] then
          (if occursWithin (jsToLower trade) (jsToLower d.categoryText) then 1 else 3/5) else 4/5)
        (if d.hasPhotos then 1 else 0) (if d.hasHours then 1 else 0)) ∧
    computeGbpScore ⟨23/5, 120, true, true, "roofer".toList⟩ "roofer".toList = 94 ∧
    scoreGBP (some ⟨23/5, 120, ["roofer".toList], 1, true⟩) "roofer".toList = 81 ∧
    volumePctFromReviews 120 = 100 ∧ (100 : ℚ) * specVolStep 120 = 90 := by
  refine ⟨?_, gbpScenario94, gbpScenarioV2_81, ?_, ?_⟩
  · unfold computeGbpScore specGbpFormula
    rw [hn, scoreReviewVolume_natCast]
    ring_nf
  · norm_num [volumePctFromReviews]
  · norm_num [specVolStep]

/-- Witness for C3's amended formula at the scenario input. -/
theorem C3_witness :
    computeGbpScore ⟨23/5, 120, true, true, "roofer".toList⟩ "roofer".toList =
      jsRound (specGbpFormula (clamp ((23/5) / 5) 0 1) (specVolStep 120)
        (if jsToLower ("roofer".toList : JStr) ≠ [] then
          (if occursWithin (jsToLower ("roofer".toList : JStr)) (jsToLower ("roofer".toList : JStr))
            then 1 else 3/5) else 4/5)
        (if true then 1 else 0) (if true then 1 else 0)) :=
  (C3_gbp_formula ⟨23/5, 120, true, true, "roofer".toList⟩ "roofer".toList 120 (by norm_num)).1

/-- Claim C6: the review-volume step function is monotone non-decreasing in
the review count and constant inside each threshold bucket. -/
theorem scoreReviewVolume_eq_bucketValue (a : ℚ) :
    scoreReviewVolume a = bucketValue (volBucket a) := by
  unfold scoreReviewVolume volBucket
  split_ifs <;> rfl

theorem C6_volume_monotone (a b : ℚ) :
    (a ≤ b → scoreReviewVolume a ≤ scoreReviewVolume b) ∧
    (volBucket a = volBucket b → scoreReviewVolume a = scoreReviewVolume b) := by
  constructor
  · intro hab
    unfold scoreReviewVolume
    split_ifs <;> linarith
  · intro hb
    rw [scoreReviewVolume_eq_bucketValue, scoreReviewVolume_eq_bucketValue, hb]

/-- Witness for C6: counts 5 and 19 share the 5-19 bucket, so the step is
both monotone and invariant between them. -/
theorem C6_witness :
    scoreReviewVolume 5 ≤ scoreReviewVolume 19 ∧ scoreReviewVolume 5 = scoreReviewVolume 19 :=
  ⟨(C6_volume_monotone 5 19).1 (by norm_num),
   (C6_volume_monotone 5 19).2 (by norm_num [volBucket])⟩

/-! ## Claim C4: range lemmas -/

theorem computeGbpScore_range (d : GbpDetails) (t : JStr) :
    0 ≤ computeGbpScore d t ∧ computeGbpScore d t ≤ 100 := by
  obtain ⟨hr0, hr1⟩ := clamp_bounds (d.rating / 5) 0 1 (by norm_num)
  obtain ⟨hv0, hv1⟩ := scoreReviewVolume_bounds d.user_ratings_total
  simp only [computeGbpScore]
  constructor
  · apply jsRound_nonneg
    split_ifs <;> linarith
  · apply jsRound_le
    push_cast
    split_ifs <;> linarith

theorem pickSiteWeights_spec (t : JStr) (em : Bool) :
    0 ≤ (pickSiteWeights t em).seo ∧ 0 ≤ (pickSiteWeights t em).cta ∧
    (pickSiteWeights t em).seo + (pickSiteWeights t em).cta = 1 := by
  simp only [pickSiteWeights]
  split_ifs <;> norm_num

theorem siteScoreOf_range (t : JStr) (em : Bool) (pSeo pCta : ℚ) :
    0 ≤ siteScoreOf (pickSiteWeights t em) (seoOfPts pSeo) (ctaOfPts pCta) ∧
    siteScoreOf (pickSiteWeights t em) (seoOfPts pSeo) (ctaOfPts pCta) ≤ 100 := by
  obtain ⟨hw0, hw1, hwsum⟩ := pickSiteWeights_spec t em
  obtain ⟨ha0, ha1⟩ := clamp_bounds pSeo 0 100 (by norm_num)
  obtain ⟨hb0, hb1⟩ := clamp_bounds pCta 0 100 (by norm_num)
  unfold siteScoreOf seoOfPts ctaOfPts
  constructor
  · exact jsRound_nonneg (by nlinarith)
  · apply jsRound_le
    push_cast
    nlinarith [mul_le_mul_of_nonneg_left ha1 hw0, mul_le_mul_of_nonneg_left hb1 hw1]

theorem finalScoreV3_range (ub : Bool) (g s : ℤ)
    (hg0 : 0 ≤ g) (hg1 : g ≤ 100) (hs0 : 0 ≤ s) (hs1 : s ≤ 100) :
    0 ≤ finalScoreV3 ub g s ∧ finalScoreV3 ub g s ≤ 100 := by
  have hg0q : (0 : ℚ) ≤ (g : ℚ) := by exact_mod_cast hg0
  have hg1q : (g : ℚ) ≤ 100 := by exact_mod_cast hg1
  have hs0q : (0 : ℚ) ≤ (s : ℚ) := by exact_mod_cast hs0
  have hs1q : (s : ℚ) ≤ 100 := by exact_mod_cast hs1
  cases ub with
  | false =>
    simp only [finalScoreV3, Bool.false_eq_true, if_false, jsRound_intCast]
    omega
  | true =>
    simp only [finalScoreV3, if_true]
    constructor
    · exact jsRound_nonneg (by linarith)
    · apply jsRound_le
      push_cast
      linarith

theorem volumePctFromReviews_range (r : ℚ) :
    20 ≤ volumePctFromReviews r ∧ volumePctFromReviews r ≤ 100 := by
  unfold volumePctFromReviews
  split_ifs <;> norm_num

theorem scoreGBP_range (d : GbpDetailsV2) (bt : JStr)
    (h0 : 0 ≤ d.rating) (h5 : d.rating ≤ 5) :
    0 ≤ scoreGBP (some d) bt ∧ scoreGBP (some d) bt ≤ 100 := by
  have hrp0 : (0 : ℤ) ≤ jsRound ((d.rating / 5) * 100) := jsRound_nonneg (by nlinarith)
  have hrp1 : jsRound ((d.rating / 5) * 100) ≤ 100 := jsRound_le (by push_cast; nlinarith)
  obtain ⟨hv0, hv1⟩ := volumePctFromReviews_range d.user_ratings_total
  have hph0 : (0 : ℤ) ≤ max 0 (min 100 ((d.photos : ℤ) * 5)) := le_max_left _ _
  have hph1 : max 0 (min 100 ((d.photos : ℤ) * 5)) ≤ 100 := by omega
  simp only [scoreGBP]
  set rp := jsRound ((d.rating / 5) * 100) with hrp
  set vp := volumePctFromReviews d.user_ratings_total with hvp
  set php := max 0 (min 100 ((d.photos : ℤ) * 5)) with hphp
  have q10 : (0 : ℚ) ≤ (rp : ℚ) := by exact_mod_cast hrp0
  have q11 : ((rp : ℤ) : ℚ) ≤ 100 := by exact_mod_cast hrp1
  have q20 : (20 : ℚ) ≤ (vp : ℚ) := by exact_mod_cast hv0
  have q21 : ((vp : ℤ) : ℚ) ≤ 100 := by exact_mod_cast hv1
  have q30 : (0 : ℚ) ≤ (php : ℚ) := by exact_mod_cast hph0
  have q31 : ((php : ℤ) : ℚ) ≤ 100 := by exact_mod_cast hph1
  constructor
  · apply jsRound_nonneg
    split_ifs <;> push_cast <;> linarith
  · apply jsRound_le
    split_ifs <;> push_cast <;> linarith

theorem scoreWebsite_range (sig : SiteSignals) (r : Bool) :
    0 ≤ scoreWebsite sig r ∧ scoreWebsite sig r ≤ 100 := by
  simp only [scoreWebsite]
  omega

theorem selectPath_final_range (f p su ok : Bool) (g s : ℤ)
    (hg0 : 0 ≤ g) (hg1 : g ≤ 100) (hs0 : 0 ≤ s) (hs1 : s ≤ 100) :
    0 ≤ (selectPath f p su ok g s).finalScore ∧ (selectPath f p su ok g s).finalScore ≤ 100 := by
  have hg0q : (0 : ℚ) ≤ (g : ℚ) := by exact_mod_cast hg0
  have hg1q : (g : ℚ) ≤ 100 := by exact_mod_cast hg1
  have hs0q : (0 : ℚ) ≤ (s : ℚ) := by exact_mod_cast hs0
  have hs1q : (s : ℚ) ≤ 100 := by exact_mod_cast hs1
  cases f <;> cases p <;> cases su <;> cases ok <;>
    simp only [selectPath, Bool.not_true, Bool.not_false, Bool.and_self, Bool.and_true,
      Bool.true_and, Bool.false_and, Bool.and_false, Bool.or_self, Bool.or_true, Bool.true_or,
      Bool.false_or, if_true, if_false, Bool.false_eq_true, Bool.true_eq_false] <;>
    first
      | omega
      | (constructor
         · exact jsRound_nonneg (by linarith)
         · apply jsRound_le
           push_cast
           linarith)

theorem calculateFinalScore_range (r rc pp c w s : ℚ) (spec : Bool) :
    0 ≤ calculateFinalScore r rc pp c w s spec ∧ calculateFinalScore r rc pp c w s spec ≤ 100 := by
  obtain ⟨h10, h11⟩ := clampPct_bounds ((r / 5) * 100)
  obtain ⟨h20, h21⟩ := clampPct_bounds (min (rc / 150) 1 * 100)
  obtain ⟨h30, h31⟩ := clampPct_bounds pp
  obtain ⟨h40, h41⟩ := clampPct_bounds c
  obtain ⟨h50, h51⟩ := clampPct_bounds w
  obtain ⟨h60, h61⟩ := clampPct_bounds s
  have q10 : (0 : ℚ) ≤ (clampPct ((r / 5) * 100) : ℚ) := by exact_mod_cast h10
  have q11 : ((clampPct ((r / 5) * 100) : ℤ) : ℚ) ≤ 100 := by exact_mod_cast h11
  have q20 : (0 : ℚ) ≤ (clampPct (min (rc / 150) 1 * 100) : ℚ) := by exact_mod_cast h20
  have q21 : ((clampPct (min (rc / 150) 1 * 100) : ℤ) : ℚ) ≤ 100 := by exact_mod_cast h21
  have q30 : (0 : ℚ) ≤ (clampPct pp : ℚ) := by exact_mod_cast h30
  have q31 : ((clampPct pp : ℤ) : ℚ) ≤ 100 := by exact_mod_cast h31
  have q40 : (0 : ℚ) ≤ (clampPct c : ℚ) := by exact_mod_cast h40
  have q41 : ((clampPct c : ℤ) : ℚ) ≤ 100 := by exact_mod_cast h41
  have q50 : (0 : ℚ) ≤ (clampPct w : ℚ) := by exact_mod_cast h50
  have q51 : ((clampPct w : ℤ) : ℚ) ≤ 100 := by exact_mod_cast h51
  have q60 : (0 : ℚ) ≤ (clampPct s : ℚ) := by exact_mod_cast h60
  have q61 : ((clampPct s : ℤ) : ℚ) ≤ 100 := by exact_mod_cast h61
  simp only [calculateFinalScore]
  cases spec with
  | false =>
    simp only [Bool.false_eq_true, if_false]
    have hf0 : (0 : ℤ) ≤ jsRound ((clampPct ((r / 5) * 100) : ℚ) * (15/100) +
        (clampPct (min (rc / 150) 1 * 100) : ℚ) * (15/100) + (clampPct pp : ℚ) * (5/100) +
        (clampPct c : ℚ) * (25/100) + (clampPct w : ℚ) * (15/100) + (clampPct s : ℚ) * (15/100)) :=
      jsRound_nonneg (by linarith)
    have hf1 : jsRound ((clampPct ((r / 5) * 100) : ℚ) * (15/100) +
        (clampPct (min (rc / 150) 1 * 100) : ℚ) * (15/100) + (clampPct pp : ℚ) * (5/100) +
        (clampPct c : ℚ) * (25/100) + (clampPct w : ℚ) * (15/100) + (clampPct s : ℚ) * (15/100)) ≤ 100 := by
      apply jsRound_le
      push_cast
      linarith
    split_ifs <;> omega
  | true =>
    simp only [if_true]
    have hf0 : (0 : ℤ) ≤ jsRound ((clampPct ((r / 5) * 100) : ℚ) * (2/10) +
        (clampPct (min (rc / 150) 1 * 100) : ℚ) * (15/100) + (clampPct pp : ℚ) * (2/10) +
        (clampPct c : ℚ) * (5/100) + (clampPct w : ℚ) * (15/100) + (clampPct s : ℚ) * (15/100)) :=
      jsRound_nonneg (by linarith)
    have hf1 : jsRound ((clampPct ((r / 5) * 100) : ℚ) * (2/10) +
        (clampPct (min (rc / 150) 1 * 100) : ℚ) * (15/100) + (clampPct pp : ℚ) * (2/10) +
        (clampPct c : ℚ) * (5/100) + (clampPct w : ℚ) * (15/100) + (clampPct s : ℚ) * (15/100)) ≤ 100 := by
      apply jsRound_le
      push_cast
      linarith
    split_ifs <;> omega

theorem clampPct_boundsQ (n : ℚ) :
    (0 : ℚ) ≤ (clampPct n : ℚ) ∧ ((clampPct n : ℤ) : ℚ) ≤ 100 := by
  obtain ⟨h0, h1⟩ := clampPct_bounds n
  exact ⟨by exact_mod_cast h0, by exact_mod_cast h1⟩

theorem fallbackClampRange (final : ℤ) (h0 : 0 ≤ final) (h1 : final ≤ 100) :
    0 ≤ min (if final = 0 then 70 else final) 99 ∧
    min (if final = 0 then 70 else final) 99 ≤ 100 := by
  split_ifs <;> omega

theorem calculateFinalScoreV2_range (r rp pp c w s : ℚ) (hg mt : Bool) :
    0 ≤ calculateFinalScoreV2 r rp pp c w s hg mt ∧
    calculateFinalScoreV2 r rp pp c w s hg mt ≤ 100 := by
  obtain ⟨a0, a1⟩ := clampPct_boundsQ ((r / 5) * 100)
  obtain ⟨b0, b1⟩ := clampPct_boundsQ rp
  obtain ⟨c0, c1⟩ := clampPct_boundsQ pp
  obtain ⟨d0, d1⟩ := clampPct_boundsQ c
  obtain ⟨e0, e1⟩ := clampPct_boundsQ w
  obtain ⟨f0, f1⟩ := clampPct_boundsQ s
  simp only [calculateFinalScoreV2]
  cases hg <;> cases mt <;>
    simp only [Bool.false_eq_true, if_false, if_true] <;>
    (apply fallbackClampRange
     · apply jsRound_nonneg
       linarith
     · apply jsRound_le
       rw [show ((100 : ℤ) : ℚ) = 100 from by norm_num]
       linarith)

/-- Claim C4: every numeric finalScore-producing computation in the three
handlers returns an integer in [0, 100] (the embedding's ℤ codomain records
integrality: every value passes through Math.round or an integer clamp):
the part_003 GBP score and weighted site score unconditionally, the
part_003 blend and the part_002 decision table for in-range sub-scores, the
part_002 GBP score for directory ratings in [0, 5], the part_002 website
score, and the legacy server.js calculateFinalScore. -/
theorem C4_final_score_range :
    (∀ (d : GbpDetails) (t : JStr), 0 ≤ computeGbpScore d t ∧ computeGbpScore d t ≤ 100) ∧
    (∀ (t : JStr) (em : Bool) (pSeo pCta : ℚ),
      0 ≤ siteScoreOf (pickSiteWeights t em) (seoOfPts pSeo) (ctaOfPts pCta) ∧
      siteScoreOf (pickSiteWeights t em) (seoOfPts pSeo) (ctaOfPts pCta) ≤ 100) ∧
    (∀ (ub : Bool) (g s : ℤ), 0 ≤ g → g ≤ 100 → 0 ≤ s → s ≤ 100 →
      0 ≤ finalScoreV3 ub g s ∧ finalScoreV3 ub g s ≤ 100) ∧
    (∀ (d : GbpDetailsV2) (bt : JStr), 0 ≤ d.rating → d.rating ≤ 5 →
      0 ≤ scoreGBP (some d) bt ∧ scoreGBP (some d) bt ≤ 100) ∧
    (∀ (bt : JStr), scoreGBP none bt = 0) ∧
    (∀ (sig : SiteSignals) (r : Bool), 0 ≤ scoreWebsite sig r ∧ scoreWebsite sig r ≤ 100) ∧
    (∀ (f p su ok : Bool) (g s : ℤ), 0 ≤ g → g ≤ 100 → 0 ≤ s → s ≤ 100 →
      0 ≤ (selectPath f p su ok g s).finalScore ∧ (selectPath f p su ok g s).finalScore ≤ 100) ∧
    (∀ (r rc pp c w s : ℚ) (spec : Bool),
      0 ≤ calculateFinalScore r rc pp c w s spec ∧ calculateFinalScore r rc pp c w s spec ≤ 100) ∧
    (∀ (r rp pp c w s : ℚ) (hg mt : Bool),
      0 ≤ calculateFinalScoreV2 r rp pp c w s hg mt ∧
      calculateFinalScoreV2 r rp pp c w s hg mt ≤ 100) :=
  ⟨computeGbpScore_range, siteScoreOf_range,
   fun ub g s hg0 hg1 hs0 hs1 => finalScoreV3_range ub g s hg0 hg1 hs0 hs1,
   fun d bt h0 h5 => scoreGBP_range d bt h0 h5,
   fun _ => rfl, scoreWebsite_range,
   fun f p su ok g s hg0 hg1 hs0 hs1 => selectPath_final_range f p su ok g s hg0 hg1 hs0 hs1,
   calculateFinalScore_range, calculateFinalScoreV2_range⟩

/-- Witness for C4 at concrete inputs, discharging the range hypotheses. -/
theorem C4_witness :
    (0 ≤ finalScoreV3 true 92 80 ∧ finalScoreV3 true 92 80 ≤ 100) ∧
    (0 ≤ scoreGBP (some ⟨23/5, 120, [], 3, true⟩) [] ∧
      scoreGBP (some ⟨23/5, 120, [], 3, true⟩) [] ≤ 100) ∧
    (0 ≤ (selectPath false true true true 92 80).finalScore ∧
      (selectPath false true true true 92 80).finalScore ≤ 100) :=
  ⟨C4_final_score_range.2.2.1 true 92 80 (by norm_num) (by norm_num) (by norm_num) (by norm_num),
   C4_final_score_range.2.2.2.1 ⟨23/5, 120, [], 3, true⟩ [] (by norm_num) (by norm_num),
   C4_final_score_range.2.2.2.2.2.2.1 false true true true 92 80
     (by norm_num) (by norm_num) (by norm_num) (by norm_num)⟩

/-! ## Claim C8 -/

theorem candLE_iff (q : JStr) (a b : Candidate) :
    candLE q a b = true ↔
      (nameSimilarity q b.name < nameSimilarity q a.name ∨
        (nameSimilarity q a.name = nameSimilarity q b.name ∧
          (strength b < strength a ∨
            (strength a = strength b ∧ b.user_ratings_total ≤ a.user_ratings_total)))) := by
  simp [candLE]

theorem candLE_trans (q : JStr) (a b c : Candidate) :
    candLE q a b = true → candLE q b c = true → candLE q a c = true := by
  simp only [candLE_iff]
  rintro (h1 | ⟨h1e, h1r | ⟨h1te, h1u⟩⟩) (h2 | ⟨h2e, h2r | ⟨h2te, h2u⟩⟩)
  · exact Or.inl (by linarith)
  · exact Or.inl (by linarith)
  · exact Or.inl (by linarith)
  · exact Or.inl (by linarith)
  · exact Or.inr ⟨by linarith, Or.inl (by linarith)⟩
  · exact Or.inr ⟨by linarith, Or.inl (by linarith)⟩
  · exact Or.inl (by linarith)
  · exact Or.inr ⟨by linarith, Or.inl (by linarith)⟩
  · exact Or.inr ⟨by linarith, Or.inr ⟨by linarith, le_trans h2u h1u⟩⟩

theorem candLE_total (q : JStr) (a b : Candidate) : candLE q a b || candLE q b a := by
  simp only [Bool.or_eq_true, candLE_iff]
  rcases lt_trichotomy (nameSimilarity q a.name) (nameSimilarity q b.name) with h | h | h
  · exact Or.inr (Or.inl h)
  · rcases lt_trichotomy (strength a) (strength b) with h2 | h2 | h2
    · exact Or.inr (Or.inr ⟨h.symm, Or.inl h2⟩)
    · rcases le_total b.user_ratings_total a.user_ratings_total with h3 | h3
      · exact Or.inl (Or.inr ⟨h, Or.inr ⟨h2, h3⟩⟩)
      · exact Or.inr (Or.inr ⟨h.symm, Or.inr ⟨h2.symm, h3⟩⟩)
    · exact Or.inl (Or.inr ⟨h, Or.inl h2⟩)
  · exact Or.inl (Or.inl h)

/-- Claim C8: candidate disambiguation is deterministic and idempotent — the
ranking comparator (similarity, then strength, then raw review count,
descending) is total and transitive, so the stable sort yields a list
sorted by the comparator that is a permutation of the input, and ranking an
already ranked list changes nothing; in particular the selected top
candidate and the clarification list are identical across repeated runs on
the same name and candidate set. -/
theorem C8_rank_deterministic (q : JStr) (cs : List Candidate) :
    rankCandidates q (rankCandidates q cs) = rankCandidates q cs ∧
    (rankCandidates q cs).Perm cs ∧
    (rankCandidates q cs).Pairwise (fun a b => candLE q a b = true) := by
  have hsorted := List.sorted_mergeSort
    (fun a b c => candLE_trans q a b c) (fun a b => candLE_total q a b) cs
  refine ⟨?_, ?_, ?_⟩
  · simp only [rankCandidates]
    exact List.mergeSort_of_sorted hsorted
  · simp only [rankCandidates]
    exact List.mergeSort_perm cs _
  · simpa [rankCandidates] using hsorted

/-! ## Claim C9 -/

theorem setAdd_mem (l : List JStr) (s x : JStr) (h : x ∈ l) : x ∈ setAdd l s := by
  unfold setAdd
  split_ifs <;> simp [h]

theorem setAdd_nodup (l : List JStr) (s : JStr) (h : l.Nodup) : (setAdd l s).Nodup := by
  unfold setAdd
  split_ifs with hs
  · exact h
  · rw [List.nodup_append]
    refine ⟨h, List.nodup_singleton s, fun x hx hmem => ?_⟩
    simp only [List.mem_singleton] at hmem
    exact hs (hmem ▸ hx)

theorem expandNameVariants_props (name : JStr) :
    (jsTrim name ≠ [] → jsTrim name ∈ expandNameVariants name) ∧
    [] ∉ expandNameVariants name ∧ (expandNameVariants name).Nodup := by
  simp only [expandNameVariants]
  refine ⟨fun hne => ?_, ?_, ?_⟩
  · exact List.mem_filter.mpr
      ⟨setAdd_mem _ _ _ (setAdd_mem _ _ _ (setAdd_mem _ _ _ (setAdd_mem _ _ _
        (setAdd_mem _ _ _ (setAdd_mem _ _ _ (List.mem_singleton_self _)))))),
       by simpa using hne⟩
  · intro hmem
    have h2 := (List.mem_filter.mp hmem).2
    simp at h2
  · exact List.Nodup.filter _
      (setAdd_nodup _ _ (setAdd_nodup _ _ (setAdd_nodup _ _ (setAdd_nodup _ _
        (setAdd_nodup _ _ (setAdd_nodup _ _ (List.nodup_singleton _)))))))

theorem expandNameVariantsV2_props (name : JStr) :
    (cleanTail name ≠ [] → cleanTail name ∈ expandNameVariantsV2 name) ∧
    [] ∉ expandNameVariantsV2 name ∧ (expandNameVariantsV2 name).Nodup := by
  by_cases hbase : cleanTail name = []
  · simp [expandNameVariantsV2, hbase]
  · simp only [expandNameVariantsV2, if_neg hbase]
    refine ⟨fun _ => ?_, ?_, ?_⟩
    · exact List.mem_filter.mpr
        ⟨setAdd_mem _ _ _ (setAdd_mem _ _ _ (setAdd_mem _ _ _ (List.mem_singleton_self _))),
         by simpa using hbase⟩
    · intro hmem
      have h2 := (List.mem_filter.mp hmem).2
      simp at h2
    · exact List.Nodup.filter _
        (setAdd_nodup _ _ (setAdd_nodup _ _ (setAdd_nodup _ _ (List.nodup_singleton _))))

/-- Claim C9 counterexample: the part_002 expander strips the leading
article, so on the input "The Acme" the returned variant list is exactly
["Acme"] and does not contain the original name. -/
theorem C9_counterexample :
    "The Acme".toList ∉ expandNameVariantsV2 "The Acme".toList ∧
    expandNameVariantsV2 "The Acme".toList = ["Acme".toList] := by
  constructor <;> decide

/-- Claim C9 amended: both expanders return a de-duplicated list with no
empty-string variant, and both keep their base name when it is non-empty —
but the base is the trimmed original for the part_003 expander, and the
cleaned name (article and "& sons" stripped) rather than the verbatim
original for the part_002 expander; when suffix stripping yields the empty
string the empty variant is filtered out so only the base survives. -/
theorem C9_variants (name : JStr) :
    (jsTrim name ≠ [] → jsTrim name ∈ expandNameVariants name) ∧
    [] ∉ expandNameVariants name ∧ (expandNameVariants name).Nodup ∧
    (cleanTail name ≠ [] → cleanTail name ∈ expandNameVariantsV2 name) ∧
    [] ∉ expandNameVariantsV2 name ∧ (expandNameVariantsV2 name).Nodup := by
  obtain ⟨h1, h2, h3⟩ := expandNameVariants_props name
  obtain ⟨h4, h5, h6⟩ := expandNameVariantsV2_props name
  exact ⟨h1, h2, h3, h4, h5, h6⟩

/-- Witness for C9 at a concrete business name with a legal suffix. -/
theorem C9_witness :
    jsTrim "Acme Roofing Inc.".toList ∈ expandNameVariants "Acme Roofing Inc.".toList ∧
    cleanTail "Acme Roofing Inc.".toList ∈ expandNameVariantsV2 "Acme Roofing Inc.".toList :=
  ⟨(C9_variants "Acme Roofing Inc.".toList).1 (by decide),
   (C9_variants "Acme Roofing Inc.".toList).2.2.2.1 (by decide)⟩

/-! ## Claim C10 -/

theorem mapSet_length_le {K α : Type} [DecidableEq K] (m : JsMap K α) (k : K) (e : CacheEntry α) :
    (mapSet m k e).length ≤ m.length + 1 := by
  induction m with
  | nil => simp [mapSet]
  | cons hd tl ih =>
    obtain ⟨k', e'⟩ := hd
    simp only [mapSet]
    split_ifs <;> simp only [List.length_cons] <;> omega

theorem mapDelete_length_le {K α : Type} [DecidableEq K] (m : JsMap K α) (k : K) :
    (mapDelete m k).length ≤ m.length := by
  induction m with
  | nil => simp [mapDelete]
  | cons hd tl ih =>
    obtain ⟨k', e'⟩ := hd
    simp only [mapDelete]
    split_ifs <;> simp only [List.length_cons] <;> omega

theorem mapGet_some_delete_length {K α : Type} [DecidableEq K] (m : JsMap K α) (k : K)
    (e : CacheEntry α) (h : mapGet m k = some e) :
    (mapDelete m k).length + 1 = m.length := by
  induction m with
  | nil => simp [mapGet] at h
  | cons hd tl ih =>
    obtain ⟨k', e'⟩ := hd
    simp only [mapGet] at h
    simp only [mapDelete]
    split_ifs at h ⊢ with hk
    · simp
    · simp only [List.length_cons]
      rw [← ih h]

theorem getFromCache_length {K α : Type} [DecidableEq K] (now : ℤ) (m : JsMap K α) (id : K) :
    ((getFromCache now m id).2).length ≤ m.length := by
  unfold getFromCache
  cases hg : mapGet m id with
  | none => simp
  | some hit =>
    simp only
    split_ifs
    · exact mapDelete_length_le m id
    · simp only [List.length_append, List.length_singleton]
      have h2 := mapGet_some_delete_length m id hit hg
      omega

theorem setCache_length {K α : Type} [DecidableEq K] (now : ℤ) (m : JsMap K α) (id : K) (v : α)
    (h : m.length ≤ 500) : (setCache now m id v).length ≤ 500 := by
  simp only [setCache]
  have hle := mapSet_length_le m id ⟨v, now + PLACE_TTL_MS⟩
  split_ifs with h5
  · cases hm : mapSet m id ⟨v, now + PLACE_TTL_MS⟩ with
    | nil =>
      rw [hm] at h5
      simp at h5
    | cons hd tl =>
      obtain ⟨k0, e0⟩ := hd
      rw [hm] at h5 hle
      show List.length (mapDelete ((k0, e0) :: tl) k0) ≤ 500
      have hdel : mapDelete ((k0, e0) :: tl) k0 = tl := by simp [mapDelete]
      rw [hdel]
      simp only [List.length_cons] at h5 hle
      omega
  · omega

theorem stepCache_length {K α : Type} [DecidableEq K] (m : JsMap K α) (op : CacheOp K α)
    (h : m.length ≤ 500) : (stepCache m op).length ≤ 500 := by
  cases op with
  | get now id => exact le_trans (getFromCache_length now m id) h
  | set now id v => exact setCache_length now m id v h

theorem runCache_length {K α : Type} [DecidableEq K] (ops : List (CacheOp K α)) :
    ∀ m : JsMap K α, m.length ≤ 500 → (runCache m ops).length ≤ 500 := by
  induction ops with
  | nil => exact fun m h => h
  | cons op rest ih =>
    intro m h
    exact ih (stepCache m op) (stepCache_length m op h)

theorem mapGet_none_mapSet {K α : Type} [DecidableEq K] (m : JsMap K α) (k : K)
    (e : CacheEntry α) (h : mapGet m k = none) : mapSet m k e = m ++ [(k, e)] := by
  induction m with
  | nil => rfl
  | cons hd tl ih =>
    obtain ⟨k', e'⟩ := hd
    simp only [mapGet] at h
    by_cases hk : k' = k
    · rw [if_pos hk] at h
      exact absurd h (Option.some_ne_none e')
    · rw [if_neg hk] at h
      simp only [mapSet, if_neg hk]
      simp [ih h]

theorem setCache_evicts_head {K α : Type} [DecidableEq K] (now : ℤ) (k0 : K) (e0 : CacheEntry α)
    (rest : JsMap K α) (id : K) (v : α)
    (hnone : mapGet ((k0, e0) :: rest) id = none)
    (hlen : ((k0, e0) :: rest).length = 500) :
    setCache now ((k0, e0) :: rest) id v = rest ++ [(id, ⟨v, now + PLACE_TTL_MS⟩)] := by
  have hset := mapGet_none_mapSet ((k0, e0) :: rest) id ⟨v, now + PLACE_TTL_MS⟩ hnone
  unfold setCache
  rw [hset]
  rw [if_pos]
  · simp [mapDelete]
  · simp only [List.length_cons] at hlen
    simp only [List.cons_append, List.length_cons, List.length_append, List.length_singleton]
    omega

theorem getFromCache_hit {K α : Type} [DecidableEq K] (now : ℤ) (m : JsMap K α) (id : K)
    (hit : CacheEntry α) (hg : mapGet m id = some hit) (hfresh : ¬ hit.exp < now) :
    getFromCache now m id = (some hit.val, mapDelete m id ++ [(id, hit)]) := by
  unfold getFromCache
  rw [hg]
  simp [hfresh]

/-- Claim C10: the PLACE_CACHE is bounded — after any sequence of
getFromCache/setCache operations starting from a map of at most 500
entries the map holds at most 500 entries; when an insertion of a new key
pushes the size past 500 the first-inserted (head) entry is evicted; and a
fresh hit is re-inserted at the back of the iteration order, so recently
read entries are the last candidates for eviction. -/
theorem C10_cache_bounded {K α : Type} [DecidableEq K] :
    (∀ (ops : List (CacheOp K α)) (m : JsMap K α), m.length ≤ 500 →
      (runCache m ops).length ≤ 500) ∧
    (∀ (now : ℤ) (k0 : K) (e0 : CacheEntry α) (rest : JsMap K α) (id : K) (v : α),
      mapGet ((k0, e0) :: rest) id = none → ((k0, e0) :: rest).length = 500 →
      setCache now ((k0, e0) :: rest) id v = rest ++ [(id, ⟨v, now + PLACE_TTL_MS⟩)]) ∧
    (∀ (now : ℤ) (m : JsMap K α) (id : K) (hit : CacheEntry α),
      mapGet m id = some hit → ¬ hit.exp < now →
      getFromCache now m id = (some hit.val, mapDelete m id ++ [(id, hit)])) :=
  ⟨fun ops m h => runCache_length ops m h,
   fun now k0 e0 rest id v h1 h2 => setCache_evicts_head now k0 e0 rest id v h1 h2,
   fun now m id hit h1 h2 => getFromCache_hit now m id hit h1 h2⟩

set_option maxRecDepth 20000 in
/-- Witness for C10: a concrete run from the empty cache, a concrete
eviction on a full 500-entry cache, and a concrete LRU re-insertion. -/
theorem C10_witness :
    (runCache ([] : JsMap ℕ ℕ) [CacheOp.set 0 3 4]).length ≤ 500 ∧
    setCache 0 ((0, ⟨0, 0⟩) :: (List.range 499).map (fun i => (i + 1, ⟨0, 0⟩))) 777 9 =
      (List.range 499).map (fun i => ((i + 1 : ℕ), (⟨0, 0⟩ : CacheEntry ℕ))) ++
        [(777, ⟨9, 0 + PLACE_TTL_MS⟩)] ∧
    getFromCache 3 [(5, (⟨9, 10⟩ : CacheEntry ℕ))] 5 =
      (some 9, mapDelete [(5, (⟨9, 10⟩ : CacheEntry ℕ))] 5 ++ [(5, ⟨9, 10⟩)]) :=
  ⟨C10_cache_bounded.1 [CacheOp.set 0 3 4] [] (by simp),
   C10_cache_bounded.2.1 0 0 ⟨0, 0⟩ ((List.range 499).map (fun i => (i + 1, ⟨0, 0⟩))) 777 9
     (by decide) (by simp),
   C10_cache_bounded.2.2 3 [(5, ⟨9, 10⟩)] 5 ⟨9, 10⟩ (by decide) (by decide)⟩

end Elev8
